import Mathlib

/-!
Shallow embedding of the offline-first PWA note-taking app
(`src/app.js`, `src/service-worker.js`).

Part 1: the service-worker caching layer (`src/service-worker.js`).
A `Response` models the observable parts of a DOM `Response`; `none` for
the network argument models a fetch that throws (network error), `some r`
a response that arrived with status `r.status`.  A cache is a list of
(request-key, response) pairs; `Cache.put` overwrites the entry for an
existing key, as the Cache API does.  Each strategy returns the response
delivered to the caller (`none` models a promise that resolves to
`undefined`), the cache afterwards, and whether a network fetch was issued.
-/

structure Response where
  status : Nat
  statusText : String
  contentType : String
  body : String
deriving DecidableEq, Repr

/-- `response.ok`: status in the 2xx success range. -/
def Response.ok (r : Response) : Bool :=
  decide (200 ≤ r.status) && decide (r.status < 300)

abbrev Cache := List (String × Response)

/-- `cache.match(request)`: the entry stored under the request key, if any. -/
def Cache.lookup (c : Cache) (key : String) : Option Response :=
  (List.find? (fun p => p.1 = key) c).map Prod.snd

/-- `cache.put(request, response)`: overwrite the entry for the key, or add it. -/
def Cache.put (c : Cache) (key : String) (r : Response) : Cache :=
  if (List.find? (fun p => p.1 = key) c).isSome then
    List.map (fun p => if p.1 = key then (key, r) else p) c
  else
    c ++ [(key, r)]

/-- `createOfflineResponse()` from `src/service-worker.js`: the synthesized
offline placeholder document. -/
def createOfflineResponse : Response :=
  { status := 200
    statusText := "OK"
    contentType := "text/html; charset=UTF-8"
    body := "<!DOCTYPE html>\n<html>\n<head>\n<title>Offline</title>\n<style>\nbody \x7b font-family: Arial; text-align: center; padding: 50px; \x7d\nh1 \x7b color: #666; \x7d\n</style>\n</head>\n<body>\n<h1>You\x27re Offline</h1>\n<p>This app works offline! Your notes are safely stored locally.</p>\n<p>Reconnect to sync your changes.</p>\n</body>\n</html>" }

/-- `cacheFirstStrategy(request)`: on a cache hit return the cached response
with no fetch; on a miss fetch, store the copy only when `response.ok`, and
on a thrown fetch return the offline placeholder. -/
def cacheFirstStrategy (net : Option Response) (cache : Cache) (req : String) :
    Option Response × Cache × Bool :=
  match cache.lookup req with
  | some cached => (some cached, cache, false)
  | none =>
    match net with
    | some r => (some r, if r.ok then cache.put req r else cache, true)
    | none => (some createOfflineResponse, cache, true)

/-- `networkFirstStrategy(request)`: fetch first; on `response.ok` cache and
return it.  On a non-ok response the source returns
`cache.match(request) || createOfflineResponse()`; `cache.match` yields a
promise, which is always truthy, so the caller receives whatever that
promise resolves to — the cached entry or `undefined` (`none` here) — and
the placeholder branch is dead.  On a thrown fetch the cached entry is
awaited properly and the placeholder is returned when there is none. -/
def networkFirstStrategy (net : Option Response) (cache : Cache) (req : String) :
    Option Response × Cache × Bool :=
  match net with
  | some r =>
    if r.ok then (some r, cache.put req r, true)
    else (cache.lookup req, cache, true)
  | none =>
    (match cache.lookup req with
     | some cached => some cached
     | none => some createOfflineResponse, cache, true)

/-- `staleWhileRevalidateStrategy(request)`: return the cached copy when
present; the background fetch always runs and stores its response only when
`response.ok`.  With no cached copy the caller waits on the fetch and gets
its response, or the offline placeholder when the fetch throws. -/
def staleWhileRevalidateStrategy (net : Option Response) (cache : Cache) (req : String) :
    Option Response × Cache × Bool :=
  let cacheAfter : Cache :=
    match net with
    | some r => if r.ok then cache.put req r else cache
    | none => cache
  let resp : Option Response :=
    match cache.lookup req with
    | some cached => some cached
    | none =>
      match net with
      | some r => some r
      | none => some createOfflineResponse
  (resp, cacheAfter, true)

/-- `isStaticAsset(url)` from `src/service-worker.js`; `endsWith` is taken
on the character list of the pathname. -/
def isStaticAsset (pathname : String) : Bool :=
  [".js", ".css", ".png", ".jpg", ".jpeg", ".gif", ".svg", ".woff", ".woff2", ".ttf"].any
    (fun ext => List.isSuffixOf ext.data pathname.data)

/-!
Part 2: the note app (`src/app.js`).

A `Note` is the stored record built in `saveNote`; `QItem` is a `syncQueue`
record (`store.add` with `autoIncrement` assigns `qid`).  `AppState` holds
the two IndexedDB object stores plus the in-memory fields the sync logic
reads (`isOnline`, `currentNoteId`) and the store's auto-increment counter.
`Date.now()` and `generateId()` are passed in as parameters (`now`,
`freshId`).  The remote endpoint of `syncWithServer` is a function from the
posted note to `some b` (a response with `ok = b`) or `none` (fetch throws,
landing in the `catch` block).  Reconciliation routines also return the
list of note payloads actually POSTed, so "zero network calls" is a
statement about the model.
-/

structure Note where
  id : String
  title : String
  content : String
  timestamp : Nat
  synced : Bool
  lastModified : Nat
deriving DecidableEq, Repr

structure QItem where
  qid : Nat
  note : Note
  enqueuedAt : Nat
deriving DecidableEq, Repr

structure AppState where
  notes : List Note
  syncQueue : List QItem
  nextQId : Nat
  isOnline : Bool
  currentNoteId : Option String
deriving DecidableEq, Repr

/-- `store.put(record)` on the `notes` store (`keyPath: 'id'`): replace the
record with the same key, or insert. -/
def putNote (n : Note) (notes : List Note) : List Note :=
  if (List.find? (fun m => m.id = n.id) notes).isSome then
    List.map (fun m => if m.id = n.id then n else m) notes
  else
    notes ++ [n]

/-- `store.getAll()` followed by lookup by key: the stored record with this id. -/
def findNote (id : String) (notes : List Note) : Option Note :=
  List.find? (fun m => m.id = id) notes

/-- `note.synced = true` before re-`put`ting the queued snapshot
(`syncWithServer`, per-item success branch). -/
def markSynced (n : Note) : Note :=
  { n with synced := true }

/-- `queueSync(note)`: `store.add` on the `syncQueue` store appends a
record under the next auto-increment key. -/
def queueSync (now : Nat) (note : Note) (s : AppState) : AppState :=
  { s with
    syncQueue := s.syncQueue ++ [{ qid := s.nextQId, note := note, enqueuedAt := now }]
    nextQId := s.nextQId + 1 }

/-- `saveNote(title, content)`: build the record (`title || 'Untitled'`,
`synced: false`, id from `currentNoteId` or a fresh one), `put` it into the
`notes` store, remember `currentNoteId`, and call `queueSync` only when
`this.isOnline`.  Returns the record together with the new state. -/
def saveNote (now : Nat) (freshId : String) (title content : String) (s : AppState) :
    Note × AppState :=
  let note : Note :=
    { id := s.currentNoteId.getD freshId
      title := if title = "" then "Untitled" else title
      content := content
      timestamp := now
      synced := false
      lastModified := now }
  let s1 : AppState := { s with notes := putNote note s.notes, currentNoteId := some note.id }
  (note, if s.isOnline then queueSync now note s1 else s1)

/-- `deleteNote(noteId)`: delete the record by key from the `notes` store
only; clear `currentNoteId` when it pointed at the deleted note. -/
def deleteNote (noteId : String) (s : AppState) : AppState :=
  { s with
    notes := List.filter (fun n => n.id ≠ noteId) s.notes
    currentNoteId := if s.currentNoteId = some noteId then none else s.currentNoteId }

/-- `syncWithServer(queue)`: POST each queued snapshot in order; on a
response with `ok` set, re-`put` the snapshot with `synced = true` and
delete the queue record by its key; on `ok` clear, do nothing for that
item; when the fetch throws the `catch` block ends the pass with the state
as it stands. -/
def syncWithServer (remote : Note → Option Bool) :
    List QItem → AppState → AppState × List Note
  | [], s => (s, [])
  | i :: rest, s =>
    match remote i.note with
    | none => (s, [i.note])
    | some true =>
      let s1 : AppState :=
        { s with
          notes := putNote (markSynced i.note) s.notes
          syncQueue := List.filter (fun j => j.qid ≠ i.qid) s.syncQueue }
      let r := syncWithServer remote rest s1
      (r.1, i.note :: r.2)
    | some false =>
      let r := syncWithServer remote rest s
      (r.1, i.note :: r.2)

/-- `autoSync()`: bail out when offline; otherwise `getAll` the queue and,
when non-empty, run `syncWithServer` over that snapshot. -/
def autoSync (remote : Note → Option Bool) (s : AppState) : AppState × List Note :=
  if s.isOnline then
    if s.syncQueue.isEmpty then (s, [])
    else syncWithServer remote s.syncQueue s
  else (s, [])

/-- `handleManualSync()`: when offline, only a notification is shown;
otherwise it defers to `autoSync`. -/
def handleManualSync (remote : Note → Option Bool) (s : AppState) : AppState × List Note :=
  if s.isOnline then autoSync remote s else (s, [])

/-- A remote endpoint that acknowledges every submission (`response.ok`). -/
def remoteAllOk : Note → Option Bool := fun _ => some true

/-- The initial stores (fresh `NotePadDB`) with the app started offline. -/
def startOffline : AppState :=
  { notes := [], syncQueue := [], nextQId := 1, isOnline := false, currentNoteId := none }

/-- The initial stores with the app started online. -/
def startOnline : AppState :=
  { notes := [], syncQueue := [], nextQId := 1, isOnline := true, currentNoteId := none }

/-- Whether the upstream outcome is a success: a response arrived and its
status is in the success range (`response.ok`). -/
def upstreamOk (net : Option Response) : Bool :=
  match net with
  | some r => r.ok
  | none => false

/-- A concrete non-success upstream response. -/
def failedUpstream : Response :=
  { status := 500, statusText := "Internal Server Error", contentType := "", body := "" }

/-- A concrete cached stylesheet response. -/
def cachedCss : Response :=
  { status := 200, statusText := "OK", contentType := "text/css", body := "body: stuff" }

/-- The queue records a reconciliation pass leaves behind: acknowledged
items are removed, refused items stay, and a thrown fetch keeps that item
and everything after it. -/
def leftoverQueue (remote : Note → Option Bool) : List QItem → List QItem
  | [] => []
  | i :: rest =>
    match remote i.note with
    | some true => leftoverQueue remote rest
    | some false => i :: leftoverQueue remote rest
    | none => i :: rest

/-- A concrete note that has not been acknowledged by the remote. -/
def pendingNote : Note :=
  { id := "note_p", title := "Pending", content := "offline text", timestamp := 5
    synced := false, lastModified := 5 }

/-- A second concrete pending note. -/
def pendingNote2 : Note :=
  { id := "note_q", title := "Pending too", content := "more text", timestamp := 6
    synced := false, lastModified := 6 }

/-- An offline state holding one pending note whose snapshot is queued. -/
def offlineQueued : AppState :=
  { notes := [pendingNote]
    syncQueue := [{ qid := 1, note := pendingNote, enqueuedAt := 7 }]
    nextQId := 2, isOnline := false, currentNoteId := none }

/-- An online state with two queued snapshots under distinct queue keys. -/
def twoQueued : AppState :=
  { notes := [pendingNote, pendingNote2]
    syncQueue := [{ qid := 1, note := pendingNote, enqueuedAt := 7 },
                  { qid := 2, note := pendingNote2, enqueuedAt := 8 }]
    nextQId := 3, isOnline := true, currentNoteId := none }

/-- A remote endpoint that acknowledges only one of the two concrete notes. -/
def remoteAckFirst : Note → Option Bool := fun n => some (n.id = "note_p")

/-- An online state with one note stored and its snapshot queued. -/
def oneQueued : AppState :=
  { notes := [pendingNote]
    syncQueue := [{ qid := 1, note := pendingNote, enqueuedAt := 7 }]
    nextQId := 2, isOnline := true, currentNoteId := some "note_p" }

/-! Helper lemmas about the keyed `put` on the `notes` store. -/

theorem find_putNote (n : Note) (ns : List Note) :
    findNote n.id (putNote n ns) = some n := by
  unfold findNote putNote
  induction ns with
  | nil => simp
  | cons m ms ih =>
    by_cases hm : m.id = n.id
    · simp [List.find?, hm]
    · by_cases hs : (List.find? (fun x => x.id = n.id) ms).isSome
      · simp only [List.find?, hm, decide_eq_true_eq, if_neg hm, hs, if_pos] at ih ⊢
        simpa [List.find?, hm, hs] using ih
      · simp only [List.find?, hm, decide_eq_true_eq, if_neg hm, hs, if_neg] at ih ⊢
        simpa [List.find?, hm, hs] using ih

theorem mem_putNote_self (n : Note) (ns : List Note) : n ∈ putNote n ns := by
  have h := find_putNote n ns
  unfold findNote at h
  exact List.mem_of_find?_eq_some h

theorem mem_putNote (p n : Note) (ns : List Note) (h : p ∈ putNote n ns) :
    p ∈ ns ∨ p = n := by
  unfold putNote at h
  by_cases hs : (List.find? (fun m => m.id = n.id) ns).isSome
  · rw [if_pos hs] at h
    rcases List.mem_map.mp h with ⟨m, hmem, heq⟩
    by_cases hid : m.id = n.id
    · right; rw [if_pos hid] at heq; exact heq.symm
    · left; rw [if_neg hid] at heq; exact heq ▸ hmem
  · rw [if_neg hs] at h
    rcases List.mem_append.mp h with hmem | hmem
    · left; exact hmem
    · right; simpa using hmem

theorem eq_of_mem_putNote (p n : Note) (ns : List Note) (hp : p ∈ putNote n ns)
    (hid : p.id = n.id) : p = n := by
  unfold putNote at hp
  by_cases hs : (List.find? (fun m => m.id = n.id) ns).isSome
  · rw [if_pos hs] at hp
    rcases List.mem_map.mp hp with ⟨m, hmem, heq⟩
    by_cases hm : m.id = n.id
    · rw [if_pos hm] at heq; exact heq.symm
    · rw [if_neg hm] at heq; subst heq; exact absurd hid hm
  · rw [if_neg hs] at hp
    rcases List.mem_append.mp hp with hmem | hmem
    · exact absurd (List.find?_isSome.mpr ⟨p, hmem, by simp [hid]⟩) hs
    · simpa using hmem

theorem map_put_id (n : Note) (l : List Note)
    (h : ∀ m ∈ l, m.id = n.id → m = n) :
    List.map (fun m => if m.id = n.id then n else m) l = l := by
  induction l with
  | nil => rfl
  | cons m ms ih =>
    simp only [List.map_cons]
    congr 1
    · by_cases hm : m.id = n.id
      · rw [if_pos hm]; exact (h m (by simp) hm).symm
      · rw [if_neg hm]
    · exact ih (fun x hx hid => h x (by simp [hx]) hid)

theorem putNote_idem (n : Note) (ns : List Note) :
    putNote n (putNote n ns) = putNote n ns := by
  have hmem : ∀ m ∈ putNote n ns, m.id = n.id → m = n :=
    fun m hm hid => eq_of_mem_putNote m n ns hm hid
  have hfind := find_putNote n ns
  unfold findNote at hfind
  generalize hq : putNote n ns = q at hmem hfind
  unfold putNote
  rw [hfind]
  simpa using map_put_id n q hmem

/-- C9: the synthesized offline placeholder has HTTP status 200 (hence
`response.ok` holds) and Content-Type `text/html`, so a caller cannot tell
the offline fallback from a genuine success by status code. -/
theorem offline_placeholder_status_200_html :
    createOfflineResponse.status = 200 ∧ createOfflineResponse.ok = true ∧
    createOfflineResponse.contentType = "text/html; charset=UTF-8" := by
  refine ⟨rfl, by decide, rfl⟩

/-- C2: at a non-success upstream response with no cached entry, the
Network-First strategy delivers no response at all (`none`, the resolved
value of `cache.match(request) || createOfflineResponse()`, where the
always-truthy promise short-circuits the `||`), not the offline
placeholder — refuting "some response is always produced". -/
theorem networkFirst_non_ok_empty_cache_resolves_absent :
    networkFirstStrategy (some failedUpstream) [] "/api/notes" = (none, [], true) ∧
    failedUpstream.ok = false := by
  exact ⟨by decide, by decide⟩

/-- C8: a Cache-First lookup for a static-asset request whose key is in the
runtime cache returns the cached response and issues zero network fetches. -/
theorem cacheFirst_hit_returns_cached_zero_fetches
    (net : Option Response) (cache : Cache) (req : String) (c : Response)
    (_hstatic : isStaticAsset req = true) (hhit : cache.lookup req = some c) :
    cacheFirstStrategy net cache req = (some c, cache, false) := by
  unfold cacheFirstStrategy
  rw [hhit]

theorem cacheFirst_hit_returns_cached_zero_fetches_witness :
    (isStaticAsset "/styles.css" = true ∧
      Cache.lookup [("/styles.css", cachedCss)] "/styles.css" = some cachedCss) ∧
    cacheFirstStrategy none [("/styles.css", cachedCss)] "/styles.css" =
      (some cachedCss, [("/styles.css", cachedCss)], false) :=
  ⟨⟨by decide, by decide⟩,
    cacheFirst_hit_returns_cached_zero_fetches none [("/styles.css", cachedCss)]
      "/styles.css" cachedCss (by decide) (by decide)⟩

/-- C7: when the upstream outcome is not a success (fetch threw, or status
outside 2xx), none of the three strategies changes its cache, so a failed
response never overwrites a previously cached entry. -/
theorem no_cache_write_without_ok (net : Option Response) (cache : Cache) (req : String)
    (h : upstreamOk net = false) :
    (cacheFirstStrategy net cache req).2.1 = cache ∧
    (networkFirstStrategy net cache req).2.1 = cache ∧
    (staleWhileRevalidateStrategy net cache req).2.1 = cache := by
  cases net with
  | none =>
    cases hc : cache.lookup req <;>
      simp [cacheFirstStrategy, networkFirstStrategy, staleWhileRevalidateStrategy, hc]
  | some r =>
    have hr : r.ok = false := by simpa [upstreamOk] using h
    cases hc : cache.lookup req <;>
      simp [cacheFirstStrategy, networkFirstStrategy, staleWhileRevalidateStrategy, hc, hr]

theorem no_cache_write_without_ok_witness :
    upstreamOk (some failedUpstream) = false ∧
    ((cacheFirstStrategy (some failedUpstream) [("/app.js", cachedCss)] "/app.js").2.1 =
        [("/app.js", cachedCss)] ∧
      (networkFirstStrategy (some failedUpstream) [("/app.js", cachedCss)] "/app.js").2.1 =
        [("/app.js", cachedCss)] ∧
      (staleWhileRevalidateStrategy (some failedUpstream)
          [("/app.js", cachedCss)] "/app.js").2.1 =
        [("/app.js", cachedCss)]) :=
  ⟨by decide,
    no_cache_write_without_ok (some failedUpstream) [("/app.js", cachedCss)] "/app.js"
      (by decide)⟩

/-- C5: triggering reconciliation while the online flag is false — timer or
connectivity trigger (`autoSync`) or manual trigger (`handleManualSync`) —
POSTs nothing and leaves the whole state, notes and sync queue included,
unchanged. -/
theorem offline_sync_makes_no_network_calls (remote : Note → Option Bool) (s : AppState)
    (h : s.isOnline = false) :
    autoSync remote s = (s, []) ∧ handleManualSync remote s = (s, []) := by
  simp [autoSync, handleManualSync, h]

theorem offline_sync_makes_no_network_calls_witness :
    offlineQueued.isOnline = false ∧
    (autoSync remoteAllOk offlineQueued = (offlineQueued, []) ∧
      handleManualSync remoteAllOk offlineQueued = (offlineQueued, [])) :=
  ⟨by decide, offline_sync_makes_no_network_calls remoteAllOk offlineQueued (by decide)⟩

/-- C1: a note saved while offline sits Pending in the `notes` store with
an empty sync queue; once connectivity returns, a reconciliation pass
submits zero items and leaves the state fixed, so the Pending note is never
discovered — `saveNote` only calls `queueSync` when `isOnline`. -/
theorem offline_saved_pending_note_never_submitted :
    ((saveNote 100 "note_1" "Milk" "Buy milk" startOffline).1.synced = false ∧
      (saveNote 100 "note_1" "Milk" "Buy milk" startOffline).2.syncQueue = []) ∧
    (autoSync remoteAllOk
        { (saveNote 100 "note_1" "Milk" "Buy milk" startOffline).2 with isOnline := true } =
      ({ (saveNote 100 "note_1" "Milk" "Buy milk" startOffline).2 with isOnline := true },
        []) ∧
      findNote "note_1"
          { (saveNote 100 "note_1" "Milk" "Buy milk" startOffline).2 with
              isOnline := true }.notes =
        some (saveNote 100 "note_1" "Milk" "Buy milk" startOffline).1) := by
  decide

/-- C6 counterexample: saving with the empty title stores the record under
title "Untitled" (`title || 'Untitled'`), so the reloaded title is not the
empty title that was passed in. -/
theorem empty_title_does_not_roundtrip :
    (findNote (saveNote 100 "note_1" "" "hello" startOnline).1.id
        (saveNote 100 "note_1" "" "hello" startOnline).2.notes).map Note.title =
      some "Untitled" ∧
    ¬ (findNote (saveNote 100 "note_1" "" "hello" startOnline).1.id
        (saveNote 100 "note_1" "" "hello" startOnline).2.notes).map Note.title =
      some "" := by
  decide

/-- C6 (amended): for every save with a nonempty title, the record reloaded
from the store by its id is exactly the saved record, whose title, content
and id equal the saved title, the saved content, and the id assigned at
save (`currentNoteId` or the fresh id); an empty title is stored as
"Untitled" instead. -/
theorem saveNote_roundtrip_nonempty_title (now : Nat) (freshId title content : String)
    (s : AppState) (h : title ≠ "") :
    findNote (saveNote now freshId title content s).1.id
        (saveNote now freshId title content s).2.notes =
      some (saveNote now freshId title content s).1 ∧
    (saveNote now freshId title content s).1.title = title ∧
    (saveNote now freshId title content s).1.content = content ∧
    (saveNote now freshId title content s).1.id = s.currentNoteId.getD freshId := by
  have hfind := find_putNote
    { id := s.currentNoteId.getD freshId
      title := if title = "" then "Untitled" else title
      content := content
      timestamp := now
      synced := false
      lastModified := now } s.notes
  unfold saveNote
  by_cases hon : s.isOnline <;>
    simp_all [queueSync, findNote, h]

theorem saveNote_roundtrip_nonempty_title_witness :
    ("groceries" : String) ≠ "" ∧
    (findNote (saveNote 100 "note_1" "groceries" "milk" startOnline).1.id
        (saveNote 100 "note_1" "groceries" "milk" startOnline).2.notes =
      some (saveNote 100 "note_1" "groceries" "milk" startOnline).1 ∧
    (saveNote 100 "note_1" "groceries" "milk" startOnline).1.title = "groceries" ∧
    (saveNote 100 "note_1" "groceries" "milk" startOnline).1.content = "milk" ∧
    (saveNote 100 "note_1" "groceries" "milk" startOnline).1.id =
      startOnline.currentNoteId.getD "note_1") :=
  ⟨by decide,
    saveNote_roundtrip_nonempty_title 100 "note_1" "groceries" "milk" startOnline
      (by decide)⟩

/-! Helper lemmas about a reconciliation pass. -/

theorem syncWithServer_preserves_isOnline (remote : Note → Option Bool)
    (l : List QItem) (s : AppState) :
    (syncWithServer remote l s).1.isOnline = s.isOnline := by
  induction l generalizing s with
  | nil => rfl
  | cons i rest ih =>
    unfold syncWithServer
    cases hr : remote i.note with
    | none => rfl
    | some b => cases b <;> simp [ih]

theorem syncWithServer_queue_eq (remote : Note → Option Bool)
    (l : List QItem) : ∀ (pre : List QItem) (s : AppState),
    s.syncQueue = pre ++ l →
    ((pre ++ l).map QItem.qid).Nodup →
    (syncWithServer remote l s).1.syncQueue = pre ++ leftoverQueue remote l := by
  induction l with
  | nil =>
    intro pre s hq _
    simpa [syncWithServer, leftoverQueue] using hq
  | cons i rest ih =>
    intro pre s hq hnd
    unfold syncWithServer leftoverQueue
    cases hr : remote i.note with
    | none => simpa using hq
    | some b =>
      cases b with
      | false =>
        have := ih (pre ++ [i]) s (by simpa using hq) (by simpa using hnd)
        simpa using this
      | true =>
        have hpre : ∀ j ∈ pre, j.qid ≠ i.qid := by
          intro j hj heq
          have : i.qid ∈ pre.map QItem.qid := heq ▸ List.mem_map_of_mem QItem.qid hj
          have hdis := (List.nodup_append.mp (by simpa using hnd)).2.2
          exact hdis this (by simp)
        have hrest : ∀ j ∈ rest, j.qid ≠ i.qid := by
          intro j hj heq
          have hnd2 : (i.qid :: rest.map QItem.qid).Nodup :=
            (List.nodup_append.mp (by simpa using hnd)).2.1
          exact (List.nodup_cons.mp hnd2).1 (heq ▸ List.mem_map_of_mem QItem.qid hj)
        have hfil : List.filter (fun j => j.qid ≠ i.qid) s.syncQueue = pre ++ rest := by
          rw [hq, List.filter_append, List.filter_cons]
          have hne : ¬ (i.qid ≠ i.qid) := by simp
          simp only [decide_eq_true_eq, hne, decide_not]
          rw [List.filter_eq_self.mpr (by intro j hj; simpa using hpre j hj),
            List.filter_eq_self.mpr (by intro j hj; simpa using hrest j hj)]
          simp
        have hsub : List.Sublist ((pre ++ rest).map QItem.qid)
            ((pre ++ i :: rest).map QItem.qid) := by
          simp only [List.map_append, List.map_cons]
          exact List.Sublist.append (List.Sublist.refl _) ((List.Sublist.refl _).cons _)
        have hnd' : ((pre ++ rest).map QItem.qid).Nodup := hnd.sublist hsub
        have := ih pre
          { s with
            notes := putNote (markSynced i.note) s.notes
            syncQueue := List.filter (fun j => j.qid ≠ i.qid) s.syncQueue }
          (by simpa using hfil) hnd'
        simpa using this

theorem syncWithServer_leftover_fixed (remote : Note → Option Bool)
    (l : List QItem) (s : AppState) :
    (syncWithServer remote (leftoverQueue remote l) s).1 = s := by
  induction l generalizing s with
  | nil => rfl
  | cons i rest ih =>
    unfold leftoverQueue
    cases hr : remote i.note with
    | none => simp [syncWithServer, hr]
    | some b =>
      cases b with
      | true => simpa using ih s
      | false => simp only [syncWithServer, hr]; exact ih s

theorem autoSync_single_ack (remote : Note → Option Bool) (s : AppState) (i : QItem)
    (hon : s.isOnline = true) (hq : s.syncQueue = [i]) (hr : remote i.note = some true) :
    (autoSync remote s).1 =
      { s with notes := putNote (markSynced i.note) s.notes, syncQueue := [] } := by
  simp [autoSync, syncWithServer, hon, hq, hr]

theorem mem_notes_syncWithServer (remote : Note → Option Bool) (l : List QItem)
    (s : AppState) (n : Note) (h : n ∈ (syncWithServer remote l s).1.notes) :
    n ∈ s.notes ∨ ∃ i ∈ l, remote i.note = some true ∧ n = markSynced i.note := by
  induction l generalizing s with
  | nil => left; simpa [syncWithServer] using h
  | cons i rest ih =>
    unfold syncWithServer at h
    cases hr : remote i.note with
    | none => rw [hr] at h; left; simpa using h
    | some b =>
      cases b with
      | false =>
        rw [hr] at h
        rcases ih s (by simpa using h) with hmem | ⟨j, hj, hjr, hjn⟩
        · exact Or.inl hmem
        · exact Or.inr ⟨j, List.mem_cons_of_mem i hj, hjr, hjn⟩
      | true =>
        rw [hr] at h
        rcases ih _ (by simpa using h) with hmem | ⟨j, hj, hjr, hjn⟩
        · rcases mem_putNote n (markSynced i.note) s.notes (by simpa using hmem) with hn | hn
          · exact Or.inl hn
          · exact Or.inr ⟨i, List.mem_cons_self i rest, hr, hn⟩
        · exact Or.inr ⟨j, List.mem_cons_of_mem i hj, hjr, hjn⟩

/-- C3 counterexample: a note written while offline is stored Pending, yet
a subsequent reconciliation pass run online against an always-acknowledging
remote leaves the state fixed and the note still Pending — no number of
successful passes returns it to Synced. -/
theorem edited_note_not_returned_to_synced :
    ((saveNote 200 "note_2" "Offline edit" "text" startOffline).1.synced = false ∧
      findNote "note_2"
          { (saveNote 200 "note_2" "Offline edit" "text" startOffline).2 with
              isOnline := true }.notes =
        some (saveNote 200 "note_2" "Offline edit" "text" startOffline).1) ∧
    ((autoSync remoteAllOk
        { (saveNote 200 "note_2" "Offline edit" "text" startOffline).2 with
            isOnline := true }).1 =
      { (saveNote 200 "note_2" "Offline edit" "text" startOffline).2 with
          isOnline := true } ∧
      (findNote "note_2"
          ((autoSync remoteAllOk
            { (saveNote 200 "note_2" "Offline edit" "text" startOffline).2 with
                isOnline := true }).1).notes).map Note.synced = some false) := by
  decide

theorem syncWithServer_append_ack (remote : Note → Option Bool) (i : QItem)
    (hr : remote i.note = some true) :
    ∀ (q : List QItem) (s : AppState),
    (∀ j ∈ q, remote j.note ≠ none) →
    findNote i.note.id ((syncWithServer remote (q ++ [i]) s).1).notes =
      some (markSynced i.note) ∧
    (∀ j ∈ ((syncWithServer remote (q ++ [i]) s).1).syncQueue, j.qid ≠ i.qid) := by
  intro q
  induction q with
  | nil =>
    intro s _
    constructor
    · have := find_putNote (markSynced i.note) s.notes
      simpa [syncWithServer, hr, markSynced] using this
    · intro j hj
      simp [syncWithServer, hr, List.mem_filter] at hj
      exact hj.2
  | cons k rest ih =>
    intro s hth
    have hth' : ∀ x ∈ rest, remote x.note ≠ none :=
      fun x hx => hth x (List.mem_cons_of_mem k hx)
    cases hkr : remote k.note with
    | none => exact absurd hkr (hth k (List.mem_cons_self k rest))
    | some b =>
      cases b with
      | false =>
        have := ih s hth'
        simpa [syncWithServer, hkr] using this
      | true =>
        have := ih
          { s with
            notes := putNote (markSynced k.note) s.notes
            syncQueue := List.filter (fun j => j.qid ≠ k.qid) s.syncQueue } hth'
        simpa [syncWithServer, hkr] using this

/-- C3 (amended): every save stores its record Pending (`synced = false`);
the only way a record enters the `notes` store with `synced = true` is the
per-item success acknowledgment inside `syncWithServer`; and a note saved
while online — whatever is already queued — is returned to Synced by the
next reconciliation pass in which no fetch throws and its own submission is
acknowledged, and that pass consumes its queue record, so no later pass
submits that save again: exactly one successful reconciliation returns it
to Synced.  (A note saved while offline is never queued, so for it the
original claim fails; see the counterexample.) -/
theorem save_resets_pending_only_ack_transitions :
    (∀ now freshId title content s,
      (saveNote now freshId title content s).1.synced = false ∧
      findNote (saveNote now freshId title content s).1.id
          (saveNote now freshId title content s).2.notes =
        some (saveNote now freshId title content s).1) ∧
    (∀ remote l s n, n ∈ (syncWithServer remote l s).1.notes →
      n ∈ s.notes ∨ ∃ i ∈ l, remote i.note = some true ∧ n = markSynced i.note) ∧
    (∀ remote now freshId title content s,
      s.isOnline = true →
      (∀ j ∈ s.syncQueue, remote j.note ≠ none) →
      remote (saveNote now freshId title content s).1 = some true →
      findNote (saveNote now freshId title content s).1.id
          ((autoSync remote (saveNote now freshId title content s).2).1).notes =
        some (markSynced (saveNote now freshId title content s).1) ∧
      (∀ j ∈ ((autoSync remote (saveNote now freshId title content s).2).1).syncQueue,
        j.qid ≠ s.nextQId)) := by
  refine ⟨?_, ?_, ?_⟩
  · intro now freshId title content s
    constructor
    · by_cases hon : s.isOnline = true <;> simp [saveNote, hon, queueSync]
    · have hfind := find_putNote
        { id := s.currentNoteId.getD freshId
          title := if title = "" then "Untitled" else title
          content := content, timestamp := now, synced := false, lastModified := now }
        s.notes
      by_cases hon : s.isOnline = true <;> simp_all [saveNote, queueSync, findNote]
  · intro remote l s n h
    exact mem_notes_syncWithServer remote l s n h
  · intro remote now freshId title content s hon hth hr
    have h1 : (saveNote now freshId title content s).2.isOnline = true := by
      simp [saveNote, hon, queueSync]
    have h2 : (saveNote now freshId title content s).2.syncQueue =
        s.syncQueue ++
          [{ qid := s.nextQId, note := (saveNote now freshId title content s).1,
             enqueuedAt := now }] := by
      simp [saveNote, hon, queueSync]
    have hne : ((saveNote now freshId title content s).2.syncQueue).isEmpty = false := by
      rw [h2]; cases s.syncQueue <;> rfl
    have hauto : (autoSync remote (saveNote now freshId title content s).2).1 =
        (syncWithServer remote
          (s.syncQueue ++
            [{ qid := s.nextQId, note := (saveNote now freshId title content s).1,
               enqueuedAt := now }])
          (saveNote now freshId title content s).2).1 := by
      simp only [autoSync]
      rw [if_pos h1, h2, if_neg (by rw [← h2, hne]; exact Bool.false_ne_true)]
    have hmain := syncWithServer_append_ack remote
      { qid := s.nextQId, note := (saveNote now freshId title content s).1,
        enqueuedAt := now } hr s.syncQueue
      (saveNote now freshId title content s).2 hth
    rw [hauto]
    exact hmain

theorem save_resets_pending_only_ack_transitions_witness :
    (twoQueued.isOnline = true ∧
      remoteAllOk (saveNote 400 "note_4" "Title4" "Body4" twoQueued).1 = some true) ∧
    findNote (saveNote 400 "note_4" "Title4" "Body4" twoQueued).1.id
        ((autoSync remoteAllOk
          (saveNote 400 "note_4" "Title4" "Body4" twoQueued).2).1).notes =
      some (markSynced (saveNote 400 "note_4" "Title4" "Body4" twoQueued).1) :=
  ⟨⟨rfl, rfl⟩,
    (save_resets_pending_only_ack_transitions.2.2 remoteAllOk 400 "note_4" "Title4"
      "Body4" twoQueued rfl (by intro j hj; simp [remoteAllOk]) rfl).1⟩


/-- C4: with identical deterministic remote behavior and no intervening
edits, running the reconciliation pass a second time leaves the stored
state (notes and sync queue) exactly as the first pass left it; and
re-applying a success acknowledgment — re-`put`ting an acknowledged
snapshot into a store it was already applied to — is a no-op. -/
theorem autoSync_idempotent (remote : Note → Option Bool) (s : AppState)
    (hnd : (s.syncQueue.map QItem.qid).Nodup) :
    (autoSync remote (autoSync remote s).1).1 = (autoSync remote s).1 ∧
    (∀ (n : Note) (ns : List Note),
      putNote (markSynced n) (putNote (markSynced n) ns) = putNote (markSynced n) ns) := by
  constructor
  · by_cases hon : s.isOnline = true
    · by_cases hq : s.syncQueue.isEmpty = true
      · simp [autoSync, hon, hq]
      · have h1 : (autoSync remote s).1 = (syncWithServer remote s.syncQueue s).1 := by
          simp [autoSync, hon, hq]
        have hqueue : (syncWithServer remote s.syncQueue s).1.syncQueue =
            leftoverQueue remote s.syncQueue := by
          simpa using
            syncWithServer_queue_eq remote s.syncQueue [] s (by simp) (by simpa using hnd)
        have hon1 : (syncWithServer remote s.syncQueue s).1.isOnline = true := by
          rw [syncWithServer_preserves_isOnline]; exact hon
        rw [h1]
        by_cases hq1 : (syncWithServer remote s.syncQueue s).1.syncQueue.isEmpty = true
        · simp [autoSync, hon1, hq1]
        · simp only [autoSync]
          rw [if_pos hon1, if_neg hq1, hqueue]
          exact syncWithServer_leftover_fixed remote s.syncQueue _
    · simp [autoSync, hon]
  · intro n ns
    exact putNote_idem (markSynced n) ns

theorem autoSync_idempotent_witness :
    (twoQueued.syncQueue.map QItem.qid).Nodup ∧
    (autoSync remoteAckFirst (autoSync remoteAckFirst twoQueued).1).1 =
      (autoSync remoteAckFirst twoQueued).1 :=
  ⟨by decide, (autoSync_idempotent remoteAckFirst twoQueued (by decide)).1⟩

/-- C10: `deleteNote` removes the record from the `notes` store only — the
sync queue and its counter are untouched — so a queued snapshot of the
deleted note survives, and an acknowledged reconciliation pass afterwards
re-`put`s the deleted note into the `notes` store with `synced = true`. -/
theorem deleteNote_leaves_queue_and_resurrects (remote : Note → Option Bool)
    (s : AppState) (noteId : String) (i : QItem)
    (hon : s.isOnline = true) (hq : s.syncQueue = [i])
    (hr : remote i.note = some true) :
    ((deleteNote noteId s).syncQueue = s.syncQueue ∧
      (deleteNote noteId s).nextQId = s.nextQId ∧
      (deleteNote noteId s).notes = List.filter (fun n => n.id ≠ noteId) s.notes) ∧
    findNote i.note.id ((autoSync remote (deleteNote i.note.id s)).1).notes =
      some (markSynced i.note) := by
  refine ⟨⟨rfl, rfl, rfl⟩, ?_⟩
  have hsingle := autoSync_single_ack remote (deleteNote i.note.id s) i hon hq hr
  rw [hsingle]
  exact find_putNote (markSynced i.note) _

theorem deleteNote_leaves_queue_and_resurrects_witness :
    (oneQueued.isOnline = true ∧
      oneQueued.syncQueue = [{ qid := 1, note := pendingNote, enqueuedAt := 7 }] ∧
      remoteAllOk pendingNote = some true) ∧
    (((deleteNote "note_other" oneQueued).syncQueue = oneQueued.syncQueue ∧
      (deleteNote "note_other" oneQueued).nextQId = oneQueued.nextQId ∧
      (deleteNote "note_other" oneQueued).notes =
        List.filter (fun n => n.id ≠ "note_other") oneQueued.notes) ∧
    findNote pendingNote.id
        ((autoSync remoteAllOk (deleteNote pendingNote.id oneQueued)).1).notes =
      some (markSynced pendingNote)) :=
  ⟨⟨rfl, rfl, rfl⟩,
    deleteNote_leaves_queue_and_resurrects remoteAllOk oneQueued "note_other"
      { qid := 1, note := pendingNote, enqueuedAt := 7 } rfl rfl rfl⟩
